import Mathlib

/-!
Verification of the tig command layer (src/unnamed/part_000, a small git
clone) against its natural-language specification.

Digests are idealized: an object is identified by its canonical content, so
the embedding lets a stored object stand for its own digest (ideal
collision-free content addressing, spec section 3: two objects with
identical canonical content always hash identically).
-/

mutual

/-- An object of the content-addressed store (spec section 3): blob, tree or
commit. Trees are modelled at toc level: a tree records the flattened
path-to-blob mapping of the snapshot (see write_tree below). The entry and
parent lists are their own mutual inductives so that every function over
objects is compiled by structural recursion and evaluates inside the kernel. -/
inductive Obj where
  | blob (content : String)
  | tree (entries : TreeEnts)
  | commit (treeObj : Obj) (parents : ObjList) (msg : String)

/-- Named tree entries of an object. -/
inductive TreeEnts where
  | nil
  | cons (name : String) (o : Obj) (rest : TreeEnts)

/-- A list of objects (parent digests of a commit). -/
inductive ObjList where
  | nil
  | cons (o : Obj) (rest : ObjList)

end

mutual

/-- Decidable equality on objects (written by hand: deriving does not cover
the mutual inductive). -/
def objDecEq : (a b : Obj) → Decidable (a = b)
  | .blob c, .blob d =>
    match decEq c d with
    | isTrue h => isTrue (by rw [h])
    | isFalse h => isFalse (fun hh => h (by injection hh))
  | .blob _, .tree _ => isFalse (fun h => Obj.noConfusion h)
  | .blob _, .commit _ _ _ => isFalse (fun h => Obj.noConfusion h)
  | .tree _, .blob _ => isFalse (fun h => Obj.noConfusion h)
  | .tree es, .tree fs =>
    match entsDecEq es fs with
    | isTrue h => isTrue (by rw [h])
    | isFalse h => isFalse (fun hh => h (by injection hh))
  | .tree _, .commit _ _ _ => isFalse (fun h => Obj.noConfusion h)
  | .commit _ _ _, .blob _ => isFalse (fun h => Obj.noConfusion h)
  | .commit _ _ _, .tree _ => isFalse (fun h => Obj.noConfusion h)
  | .commit t p m, .commit t2 p2 m2 =>
    match objDecEq t t2 with
    | isFalse h => isFalse (fun hh => h (by injection hh))
    | isTrue h1 =>
      match objListDecEq p p2 with
      | isFalse h => isFalse (fun hh => h (by injection hh))
      | isTrue h2 =>
        match decEq m m2 with
        | isFalse h => isFalse (fun hh => h (by injection hh))
        | isTrue h3 => isTrue (by rw [h1, h2, h3])

/-- Decidable equality on tree entry lists. -/
def entsDecEq : (a b : TreeEnts) → Decidable (a = b)
  | .nil, .nil => isTrue rfl
  | .nil, .cons _ _ _ => isFalse (fun h => TreeEnts.noConfusion h)
  | .cons _ _ _, .nil => isFalse (fun h => TreeEnts.noConfusion h)
  | .cons n o xs, .cons n2 o2 ys =>
    match decEq n n2 with
    | isFalse h => isFalse (fun hh => h (by injection hh))
    | isTrue h1 =>
      match objDecEq o o2 with
      | isFalse h => isFalse (fun hh => h (by injection hh))
      | isTrue h2 =>
        match entsDecEq xs ys with
        | isFalse h => isFalse (fun hh => h (by injection hh))
        | isTrue h3 => isTrue (by rw [h1, h2, h3])

/-- Decidable equality on object lists. -/
def objListDecEq : (a b : ObjList) → Decidable (a = b)
  | .nil, .nil => isTrue rfl
  | .nil, .cons _ _ => isFalse (fun h => ObjList.noConfusion h)
  | .cons _ _, .nil => isFalse (fun h => ObjList.noConfusion h)
  | .cons x xs, .cons y ys =>
    match objDecEq x y with
    | isFalse h => isFalse (fun hh => h (by injection hh))
    | isTrue h1 =>
      match objListDecEq xs ys with
      | isFalse h => isFalse (fun hh => h (by injection hh))
      | isTrue h2 => isTrue (by rw [h1, h2])

end

instance : DecidableEq Obj := objDecEq

instance : DecidableEq TreeEnts := entsDecEq

instance : DecidableEq ObjList := objListDecEq

/-- Tree entries as an ordinary list. -/
def TreeEnts.toList : TreeEnts → List (String × Obj)
  | .nil => []
  | .cons n o rest => (n, o) :: rest.toList

/-- Tree entries built from an ordinary list. -/
def entsOfList : List (String × Obj) → TreeEnts
  | [] => .nil
  | (n, o) :: rest => .cons n o (entsOfList rest)

/-- Object list built from an ordinary list. -/
def objListOfList : List Obj → ObjList
  | [] => .nil
  | o :: rest => .cons o (objListOfList rest)

/-- Prefix test on strings by structural recursion over their characters
(the library version does not evaluate inside the kernel). -/
def strPrefixOf (p s : String) : Bool :=
  List.isPrefixOf p.data s.data

/-- Character-level drop on strings. -/
def strDrop (s : String) (n : Nat) : String :=
  String.mk (s.data.drop n)

/-- Character-level dropLast on strings. -/
def strDropLast (s : String) : String :=
  String.mk s.data.dropLast

/-- Suffix test on strings by structural recursion over their characters. -/
def strEndsWith (s suffix : String) : Bool :=
  List.isSuffixOf suffix.data s.data

/-- Association lookup keyed by strings. -/
def assocFind (k : String) : List (String × α) → Option α
  | [] => none
  | e :: rest => if e.1 = k then some e.2 else assocFind k rest

/-- Display form of a digest inside user-facing report strings. Digests are
modelled as the objects themselves, so their textual form is abstracted to a
fixed placeholder; no claim under proof depends on the digest text. -/
def digestText (_ : Obj) : String := "<digest>"

/-- objects.type (spec section 4.1). -/
def objType : Obj → String
  | .blob _ => "blob"
  | .tree _ => "tree"
  | .commit _ _ _ => "commit"

/-- objects.treeHash: the tree digest recorded in a commit object; undefined
for other object kinds. -/
def objTreeHash : Obj → Option Obj
  | .commit t _ _ => some t
  | _ => none

/-- Content of a blob object; other kinds have no file content. -/
def blobContent : Obj → String
  | .blob c => c
  | _ => ""

/-- Idempotent content-addressed store write (spec section 4.1: write stores
the object keyed by digest if not already present). -/
def storeAdd (store : List Obj) (o : Obj) : List Obj :=
  if o ∈ store then store else o :: store

/-- An index entry (spec section 3): path, stage number, blob digest. -/
structure IndexEntry where
  path : String
  stage : Nat
  hash : Obj
deriving DecidableEq

/-- Value of the HEAD file: raw symbolic reference text (such as
"ref: refs/heads/master") or a direct commit digest (detached). -/
inductive RefValue where
  | sym (content : String)
  | direct (h : Obj)
deriving DecidableEq

/-- A ref argument handed to a command: HEAD, a branch name, or a raw object
digest (spec design note: tagged variant instead of a string doubling as
symbolic-or-hash). -/
inductive RefName where
  | head
  | branch (name : String)
  | rawHash (h : Obj)
deriving DecidableEq

/-- Display text of a ref argument inside report strings. -/
def refText : RefName → String
  | .head => "HEAD"
  | .branch n => n
  | .rawHash h => digestText h

/-- Persisted repository state (spec section 6): HEAD, refs/heads, the object
store, the index, the working copy, the pending merge markers and the bare
flag from config. -/
structure RepoState where
  headVal : RefValue
  refsHeads : List (String × Obj)
  otherRefs : List (String × Obj)
  store : List Obj
  indexEntries : List IndexEntry
  workingCopy : List (String × String)
  mergeHead : Option Obj
  mergeMsg : Option String
  bare : Bool
deriving DecidableEq

/-- A directory that may or may not be an initialized repository; init is the
only command modelled at this level (every other command asserts it runs
inside a repository and is modelled on RepoState directly). -/
structure Disk where
  inRepo : Bool
  repo : RepoState
deriving DecidableEq

/-- objects.read (spec section 4.1): fails (returns none, ObjectNotFound) when
no object with the digest exists; in the embedding a stored digest is the
object itself. An undefined digest reads nothing. -/
def objRead (st : RepoState) : Option Obj → Option Obj
  | none => none
  | some h => if h ∈ st.store then some h else none

/-- objects.exists on a possibly undefined digest. -/
def objExistsOpt (st : RepoState) : Option Obj → Bool
  | none => false
  | some h => decide (h ∈ st.store)

/-- Strip one trailing newline from ref file content. -/
def stripNl (s : String) : String :=
  if strEndsWith s "\n" then strDropLast s else s

/-- Branch name designated by symbolic ref text of the exact form
"ref: refs/heads/<name>"; none for any other content. -/
def symTargetBranch (s : String) : Option String :=
  if strPrefixOf "ref: refs/heads/" s then some (stripNl (strDrop s 16)) else none

/-- Ref path designated by arbitrary symbolic ref text ("ref: <path>"). -/
def symTargetAny (s : String) : String :=
  stripNl (if strPrefixOf "ref: " s then strDrop s 5 else s)

/-- refs.toLocalRef (spec section 4.2). -/
def toLocalRef (n : String) : String := "refs/heads/" ++ n

/-- Modelled from the spec: refs.isHeadDetached (section 4.2) is absent from
src/; HEAD is detached exactly when it holds a direct digest rather than
symbolic text. -/
def isHeadDetached (st : RepoState) : Bool :=
  match st.headVal with
  | .direct _ => true
  | .sym _ => false

/-- Modelled from the spec: refs.headBranchName (section 4.2) is absent from
src/; defined only when HEAD is symbolic and names a local branch. -/
def headBranchName (st : RepoState) : Option String :=
  match st.headVal with
  | .direct _ => none
  | .sym s => symTargetBranch s

/-- Modelled from the spec: refs.hash (section 4.2) is absent from src/. A
bare HEAD resolves through the symbolic chain; a branch name resolves through
refs/heads; a raw digest that exists in the store is returned directly;
anything else is undefined. -/
def refsHash (st : RepoState) : RefName → Option Obj
  | .head =>
    match st.headVal with
    | .direct h => some h
    | .sym s => (symTargetBranch s).bind (fun b => assocFind b st.refsHeads)
  | .branch n => assocFind n st.refsHeads
  | .rawHash h => if h ∈ st.store then some h else none

/-- refs.hash applied to a possibly omitted argument (JS undefined resolves to
undefined). -/
def refsHashOpt (st : RepoState) (r : Option RefName) : Option Obj :=
  r.bind (refsHash st)

/-- Modelled from the spec: refs.exists (section 4.2) is absent from src/;
true when the named ref file is stored. -/
def refsExists (st : RepoState) (r : String) : Bool :=
  if strPrefixOf "refs/heads/" r then (assocFind (strDrop r 11) st.refsHeads).isSome
  else (assocFind r st.otherRefs).isSome

/-- Set or append a key in an association list (whole-file ref rewrite). -/
def assocSet (l : List (String × Obj)) (k : String) (v : Obj) : List (String × Obj) :=
  if (assocFind k l).isSome then l.map (fun e => if e.1 = k then (k, v) else e)
  else l ++ [(k, v)]

/-- Modelled from the spec: tig.update_ref is absent from src/. Per section
4.2 a ref write stores the hash atomically; updating HEAD writes through the
symbolic chain (the branch ref when HEAD is attached, HEAD itself when
detached). -/
def update_ref (st : RepoState) (r : String) (h : Obj) : RepoState :=
  if r = "HEAD" then
    match st.headVal with
    | .direct _ => { st with headVal := .direct h }
    | .sym s =>
      match symTargetBranch s with
      | some b => { st with refsHeads := assocSet st.refsHeads b h }
      | none => { st with otherRefs := assocSet st.otherRefs (symTargetAny s) h }
  else if strPrefixOf "refs/heads/" r then
    { st with refsHeads := assocSet st.refsHeads (strDrop r 11) h }
  else
    { st with otherRefs := assocSet st.otherRefs r h }

/-- merge.isMergeInProgress: the pending second-parent marker MERGE_HEAD is
present (spec section 3, merge state). -/
def isMergeInProgress (st : RepoState) : Bool :=
  st.mergeHead.isSome

/-- Modelled from the spec: refs.commitParentHashes (section 4.2) is absent
from src/; 0 entries when HEAD is unresolved, 2 entries HEAD and MERGE_HEAD
when a merge is pending, 1 entry otherwise. -/
def commitParentHashes (st : RepoState) : List Obj :=
  match refsHash st .head with
  | none => []
  | some h =>
    match st.mergeHead with
    | some mh => [h, mh]
    | none => [h]

/-- Modelled from the spec: index.conflictedPaths (section 4.3) is absent
from src/; the paths with any entry at a stage other than 0. -/
def conflictedPaths (st : RepoState) : List String :=
  (st.indexEntries.filter (fun e => e.stage ≠ 0)).map (fun e => e.path)

/-- Modelled from the spec: index.matchingFiles (section 4.3) is absent from
src/; all staged paths equal to or nested under the given path prefix. -/
def matchingFiles (st : RepoState) (p : String) : List String :=
  (st.indexEntries.map (fun e => e.path)).filter
    (fun q => q = p ∨ strPrefixOf (p ++ "/") q)

/-- Modelled from the spec: index.tocToIndex (section 4.3) is absent from
src/; a flattened mapping becomes stage-0 entries. -/
def tocToIndex (toc : List (String × Obj)) : List IndexEntry :=
  toc.map (fun e => { path := e.1, stage := 0, hash := e.2 })

/-- Stage-0 digest staged for a path, when present. -/
def indexStage0Hash (st : RepoState) (p : String) : Option Obj :=
  (st.indexEntries.find? (fun e => e.path = p ∧ e.stage = 0)).map (fun e => e.hash)

/-- Flattening of the index into a toc (spec section 3: table of contents). -/
def indexToc (st : RepoState) : List (String × Obj) :=
  st.indexEntries.map (fun e => (e.path, e.hash))

/-- Toc of the working copy: each on-disk file as a blob (ideal content
addressing makes the digest the blob itself). -/
def wcToc (st : RepoState) : List (String × Obj) :=
  st.workingCopy.map (fun e => (e.1, Obj.blob e.2))

/-- Modelled from the spec: objects.commitToc (section 4.1) is absent from
src/; the flattened path-to-blob view of a commit. Snapshots are modelled at
toc level (see write_tree below), so the view is the entry list of the root
tree of the commit. -/
def commitToc (c : Obj) : List (String × Obj) :=
  match c with
  | .commit t _ _ =>
    match t with
    | .tree es => es.toList
    | _ => []
  | _ => []

/-- Status of one path in a diff (spec section 4.4). -/
inductive FileStatus where
  | added
  | modified
  | deleted
  | same
deriving DecidableEq

/-- Modelled from the spec: the Diff Engine core (section 4.4) is absent from
src/. Union the path sets of the two tocs; present only in the second side is
added, present only in the first is deleted, present in both with different
digests is modified, otherwise unchanged. -/
def diffTocs (ta tb : List (String × Obj)) : List (String × FileStatus) :=
  ((ta.map (fun e => e.1)) ++ (tb.map (fun e => e.1))).dedup.map (fun p =>
    (p, match assocFind p ta, assocFind p tb with
        | some x, some y => if x = y then FileStatus.same else FileStatus.modified
        | none, some _ => FileStatus.added
        | some _, none => FileStatus.deleted
        | none, none => FileStatus.same))

/-- Modelled from the spec: side resolution of diff.diff (section 4.4); a
commit digest resolves through commitToc, an undefined side denotes the live
working-copy snapshot. -/
def diffSideToc (st : RepoState) : Option Obj → List (String × Obj)
  | some h => commitToc h
  | none => wcToc st

/-- diff.diff on two resolved-or-live sides. -/
def diffEngine (st : RepoState) (a b : Option Obj) : List (String × FileStatus) :=
  diffTocs (diffSideToc st a) (diffSideToc st b)

/-- Single-letter display status (spec section 4.4 nameStatus). -/
def statusLetter : FileStatus → String
  | .added => "A"
  | .modified => "M"
  | .deleted => "D"
  | .same => ""

/-- Modelled from the spec: diff.nameStatus (section 4.4) is absent from
src/; unchanged paths are filtered out of the display mapping. -/
def nameStatus (ds : List (String × FileStatus)) : List (String × String) :=
  (ds.filter (fun e => e.2 ≠ FileStatus.same)).map (fun e => (e.1, statusLetter e.2))

/-- Modelled from the spec: diff.addedOrModifiedFiles (section 4.4) is absent
from src/; the paths where the working copy differs from the index. -/
def addedOrModifiedFiles (st : RepoState) : List String :=
  (st.workingCopy.map (fun e => e.1)).filter (fun p =>
    match assocFind p st.workingCopy, indexStage0Hash st p with
    | some c, some h => Obj.blob c ≠ h
    | some _, none => true
    | none, _ => false)

/-- Modelled from the spec: diff.changedFilesCommitWouldOverwrite (section
4.4) is absent from src/; the paths where the working copy differs from the
index and the index entry would be overwritten by checking out the target
commit. -/
def changedFilesCommitWouldOverwrite (st : RepoState) (target : Obj) : List String :=
  (addedOrModifiedFiles st).filter
    (fun p => indexStage0Hash st p ≠ assocFind p (commitToc target))

/-- Modelled from the spec: workingCopy.write (section 4.6) is absent from
src/; applies a computed diff onto the on-disk working copy, writing added
and modified paths from the target toc and deleting removed paths. -/
def applyDiffWC (wc : List (String × String)) (target : List (String × Obj))
    (ds : List (String × FileStatus)) : List (String × String) :=
  ds.foldl (fun acc e =>
    match e.2 with
    | .added =>
      (acc.filter (fun f => f.1 ≠ e.1)) ++
        [(e.1, blobContent ((assocFind e.1 target).getD (Obj.blob "")))]
    | .modified =>
      (acc.filter (fun f => f.1 ≠ e.1)) ++
        [(e.1, blobContent ((assocFind e.1 target).getD (Obj.blob "")))]
    | .deleted => acc.filter (fun f => f.1 ≠ e.1)
    | .same => acc) wc

/-- fs.existsSync on the working copy: a file with that path, or a directory
some file is nested under. -/
def fsExists (st : RepoState) (p : String) : Bool :=
  (assocFind p st.workingCopy).isSome ||
    st.workingCopy.any (fun e => strPrefixOf (p ++ "/") e.1)

/-- fs.statSync(path).isDirectory on the working copy. -/
def wcIsDirectory (st : RepoState) (p : String) : Bool :=
  st.workingCopy.any (fun e => strPrefixOf (p ++ "/") e.1)

/-- Modelled from the spec: tig.write_tree is absent from src/. Section 4.1
writeTree reconstructs directories from the flattened index mapping and
writes tree objects, returning the root digest; the embedding models the
snapshot at toc level, writing a single root tree object that records the
flattened mapping (the claims under proof depend only on the identity of the
root snapshot, not on per-directory chunking). -/
def write_tree (st : RepoState) : Obj × RepoState :=
  let root := Obj.tree (entsOfList (indexToc st))
  (root, { st with store := storeAdd st.store root })

/-- Modelled from the spec: objects.writeCommit (section 4.1) is absent from
src/; serializes and stores a commit object without updating any ref. -/
def writeCommit (st : RepoState) (t : Obj) (m : String) (parents : List Obj) :
    Obj × RepoState :=
  let c := Obj.commit t (objListOfList parents) m
  (c, { st with store := storeAdd st.store c })

/-- Typed command failures (spec section 7), plus the JS runtime failures the
source can actually raise: a ReferenceError from a misspelled identifier, a
TypeError from calling a non-function, and a missing-file read. -/
inductive TigError where
  | bareRepository
  | noMatchingFiles (path : String)
  | cannotRemoveChanged
  | recursiveRequired
  | nothingToCommit (headDesc : String)
  | unmergedFiles (paths : List String)
  | duplicateBranch (name : String)
  | noCommitYet
  | unknownRevision (arg : String)
  | notACommit (arg : String)
  | wouldLoseChanges (paths : List String)
  | objectNotFound
  | fileNotFound (path : String)
  | referenceError (name : String)
  | typeError (what : String)
deriving DecidableEq

/-- Options accepted by init: the bare flag. -/
structure InitOpts where
  bare : Bool
deriving DecidableEq

/-- Options accepted by rm: force and recursive. -/
structure RmOpts where
  f : Bool
  r : Bool
deriving DecidableEq

/-- Options accepted by commit: the message passed with -m. -/
structure CommitOpts where
  m : String
deriving DecidableEq

/-- tig.init (source lines 11-47): abort silently when already inside a
repository; otherwise write the directory structure whose HEAD text is
"ref: refs/headers/master" with a newline (the text the source writes,
verbatim), a config carrying the bare flag, an empty objects directory and an
empty refs/heads directory. -/
def init (opts : InitOpts) (d : Disk) : Disk :=
  if d.inRepo then d
  else
    { inRepo := true,
      repo :=
        { headVal := RefValue.sym "ref: refs/headers/master\n",
          refsHeads := [],
          otherRefs := [],
          store := [],
          indexEntries := [],
          workingCopy := d.repo.workingCopy,
          mergeHead := none,
          mergeMsg := none,
          bare := opts.bare } }

/-- tig.rm (source lines 80-119). The source computes the files matching the
path, then: throws "You cannot remove a file with changes" whenever the -f
option is passed; throws when nothing matched; throws when the target is a
directory and -r was not passed; computes changesToRm and then tests the
misspelled identifier changestoRm, which raises a ReferenceError. -/
def rm (path : String) (opts : RmOpts) (st : RepoState) :
    Except TigError String × RepoState :=
  if st.bare then (.error .bareRepository, st)
  else
    let filesToRm := matchingFiles st path
    if opts.f then (.error .cannotRemoveChanged, st)
    else if filesToRm = [] then (.error (.noMatchingFiles path), st)
    else if fsExists st path ∧ wcIsDirectory st path ∧ ¬ opts.r then
      (.error .recursiveRequired, st)
    else
      let _changesToRm :=
        (addedOrModifiedFiles st).filter (fun p => p ∈ filesToRm)
      (.error (.referenceError "changestoRm"), st)

/-- The first conjunct of the nothing-to-commit guard in tig.commit (source
line 150): the source compares refs.hash("HEAD") against the string literal
"undefined" with the strict !== operator. An unresolved HEAD yields the
undefined value, which is not that string; a resolved HEAD yields a digest,
whose text never reads "undefined". -/
def hashNeqLiteralUndefined (h : Option Obj) : Bool :=
  match h with
  | none => true
  | some o => digestText o ≠ "undefined"

/-- Tail of tig.commit after the nothing-to-commit guard (source lines
158-196): the unmerged-files check, the choice of message, writeCommit,
update_ref on HEAD and the consumption of the pending merge state. -/
def commitFinish (m : String) (treeHash : Obj) (headDesc : String)
    (st1 : RepoState) : Except TigError String × RepoState :=
  let w := writeCommit st1 treeHash m (commitParentHashes st1)
  let commitHash := w.1
  let st2 := w.2
  let st3 := update_ref st2 "HEAD" commitHash
  if isMergeInProgress st3 then
    (.ok "Merge made by three-way strategy.",
      { st3 with mergeMsg := none, mergeHead := none })
  else
    (.ok ("[" ++ headDesc ++ " " ++ digestText commitHash ++ "] " ++ m), st3)

/-- Middle of tig.commit (source lines 158-185): conflicted paths block the
commit only when a merge is also in progress; the message is the persisted
MERGE_MSG during a merge (fs.readFileSync fails when the file is absent) and
the -m option otherwise. -/
def commitAfterTreeCheck (opts : CommitOpts) (treeHash : Obj)
    (headDesc : String) (st1 : RepoState) : Except TigError String × RepoState :=
  let conflicted := conflictedPaths st1
  if isMergeInProgress st1 ∧ conflicted ≠ [] then
    (.error (.unmergedFiles conflicted), st1)
  else if isMergeInProgress st1 then
    match st1.mergeMsg with
    | none => (.error (.fileNotFound "MERGE_MSG"), st1)
    | some mm => commitFinish mm treeHash headDesc st1
  else
    commitFinish opts.m treeHash headDesc st1

/-- tig.commit (source lines 129-197): write the tree for the index, run the
nothing-to-commit guard (whose first conjunct compares against the string
literal "undefined", so reading the HEAD object is attempted even when HEAD
is unresolved and objects.read then fails with ObjectNotFound), then the
unmerged-files check, the message choice, writeCommit and the HEAD update. -/
def commit (opts : CommitOpts) (st : RepoState) :
    Except TigError String × RepoState :=
  if st.bare then (.error .bareRepository, st)
  else
    let tw := write_tree st
    let treeHash := tw.1
    let st1 := tw.2
    let headDesc :=
      if isHeadDetached st1 then "detached HEAD"
      else (headBranchName st1).getD "undefined"
    if hashNeqLiteralUndefined (refsHash st1 .head) then
      match objRead st1 (refsHash st1 .head) with
      | none => (.error .objectNotFound, st1)
      | some o =>
        if some treeHash = objTreeHash o then
          (.error (.nothingToCommit headDesc), st1)
        else commitAfterTreeCheck opts treeHash headDesc st1
    else commitAfterTreeCheck opts treeHash headDesc st1

/-- Listing text of tig.branch when no name is passed (source lines 213-217). -/
def branchListing (st : RepoState) : String :=
  String.intercalate "\n"
    (st.refsHeads.map (fun e =>
      (if headBranchName st = some e.1 then "*" else " ") ++ e.1)) ++ "\n"

/-- tig.branch (source lines 208-231): list branches when no name is given;
abort when HEAD resolves to nothing; when the local ref already exists the
source evaluates the misspelled constructor Errror, raising a ReferenceError
before any ref is written; otherwise write the new branch ref at the digest
HEAD points to. -/
def branch (name : Option String) (st : RepoState) :
    Except TigError String × RepoState :=
  match name with
  | none => (.ok (branchListing st), st)
  | some n =>
    match refsHash st .head with
    | none => (.error .noCommitYet, st)
    | some h =>
      if refsExists st (toLocalRef n) then
        (.error (.referenceError "Errror"), st)
      else
        (.ok "", update_ref st (toLocalRef n) h)

/-- First disjunct of the already-on test in tig.checkout (source line 260):
the ref argument textually equals the current branch name. -/
def refIsHeadBranch (st : RepoState) (ref : RefName) : Bool :=
  match ref with
  | .branch b => headBranchName st = some b
  | _ => false

/-- Second disjunct of the already-on test (source line 260): the ref
argument textually equals the content of the HEAD file; only a raw digest can
equal the content of a detached HEAD (symbolic content carries the
"ref: " prefix, which no branch name or digest reads as). -/
def refEqHeadFileContent (st : RepoState) (ref : RefName) : Bool :=
  match ref, st.headVal with
  | .rawHash h, .direct h2 => h = h2
  | _, _ => false

/-- The isDetachingHead test in tig.checkout (source line 276):
object.exists(ref), true exactly when the argument itself is a stored
digest. -/
def refExistsAsObj (st : RepoState) (ref : RefName) : Bool :=
  match ref with
  | .rawHash h => decide (h ∈ st.store)
  | _ => false

/-- tig.checkout (source lines 242-288): resolve the target, require an
existing commit object, report when already on the target, abort with the
would-lose-changes error before any write when uncommitted work would be
overwritten, then apply the diff to the working copy, write HEAD (direct
digest when detaching, symbolic text otherwise) and reset the index to the
toc of the target commit. -/
def checkout (ref : RefName) (st : RepoState) :
    Except TigError String × RepoState :=
  if st.bare then (.error .bareRepository, st)
  else
    let toHash := refsHash st ref
    match toHash with
    | none => (.error (.unknownRevision (refText ref)), st)
    | some h =>
      if h ∉ st.store then (.error (.unknownRevision (refText ref)), st)
      else if objType h ≠ "commit" then (.error (.notACommit (refText ref)), st)
      else if refIsHeadBranch st ref ∨ refEqHeadFileContent st ref then
        (.ok ("You are already on " ++ refText ref ++ " ◕_◕"), st)
      else
        let paths := changedFilesCommitWouldOverwrite st h
        if paths ≠ [] then (.error (.wouldLoseChanges paths), st)
        else
          let isDetaching := refExistsAsObj st ref
          let newWC :=
            applyDiffWC st.workingCopy (commitToc h)
              (diffEngine st (refsHash st .head) (some h))
          let st1 := { st with workingCopy := newWC }
          let st2 :=
            { st1 with headVal :=
                if isDetaching then RefValue.direct h
                else RefValue.sym ("ref: " ++ toLocalRef (refText ref)) }
          let st3 := { st2 with indexEntries := tocToIndex (commitToc h) }
          (.ok (if isDetaching then
                  "Note: Checking out " ++ digestText h ++
                    " \n You are in detached HEAD state."
                else "Switched to branch " ++ refText ref), st3)

/-- Display text of a possibly omitted ref argument (JS interpolates the
undefined value as the text "undefined"). -/
def refArgText : Option RefName → String
  | none => "undefined"
  | some r => refText r

/-- tig.diff (source lines 298-314): each unknown-revision guard tests
ref === undefined conjoined with an unresolved hash, so it can only fire for
an omitted argument; afterwards the name-status mapping is computed and the
source formats it by calling nameToStatus(path) on a plain object, which
raises a TypeError whenever the mapping is non-empty, and yields a bare
newline when it is empty. -/
def diffCmd (ref1 ref2 : Option RefName) (st : RepoState) :
    Except TigError String × RepoState :=
  if st.bare then (.error .bareRepository, st)
  else if ref1 = none ∧ refsHashOpt st ref1 = none then
    (.error (.unknownRevision (refArgText ref1)), st)
  else if ref2 = none ∧ refsHashOpt st ref2 = none then
    (.error (.unknownRevision (refArgText ref2)), st)
  else
    let ns := nameStatus (diffEngine st (refsHashOpt st ref1) (refsHashOpt st ref2))
    if ns = [] then (.ok "\n", st)
    else (.error (.typeError "nameToStatus is not a function"), st)

/-- Blob fixtures for the concrete repositories used by the theorems. -/
def bOne : Obj := Obj.blob "one"

/-- Second blob fixture. -/
def bTwo : Obj := Obj.blob "two"

/-- Empty tree fixture. -/
def tEmpty : Obj := Obj.tree TreeEnts.nil

/-- Tree holding a.txt at content "one". -/
def tOne : Obj := Obj.tree (entsOfList [("a.txt", bOne)])

/-- Tree holding a.txt at content "two". -/
def tTwo : Obj := Obj.tree (entsOfList [("a.txt", bTwo)])

/-- Root commit over the tree holding "one". -/
def cFirst : Obj := Obj.commit tOne ObjList.nil "first"

/-- Child commit over the tree holding "two". -/
def cSecond : Obj := Obj.commit tTwo (objListOfList [cFirst]) "second"

/-- Root commit over the empty tree. -/
def cRoot : Obj := Obj.commit tEmpty ObjList.nil "root"

/-- An unrelated commit, used as a pending merge head. -/
def cOther : Obj := Obj.commit (Obj.tree (entsOfList [("b.txt", Obj.blob "b")])) ObjList.nil "other"

/-- A repository state with every component empty; the repo field of a disk
that has not been initialized. -/
def emptyRepo : RepoState :=
  { headVal := RefValue.sym "",
    refsHeads := [], otherRefs := [], store := [], indexEntries := [],
    workingCopy := [], mergeHead := none, mergeMsg := none, bare := false }

/-- A directory that is not yet a repository. -/
def emptyDisk : Disk := { inRepo := false, repo := emptyRepo }

/-- Repository for the rm claim: a.txt staged at content "one" but holding
content "new" on disk (an uncommitted change). -/
def stRm : RepoState :=
  { headVal := RefValue.sym "ref: refs/heads/master",
    refsHeads := [("master", cFirst)], otherRefs := [],
    store := [bOne, tOne, cFirst],
    indexEntries := [{ path := "a.txt", stage := 0, hash := bOne }],
    workingCopy := [("a.txt", "new")],
    mergeHead := none, mergeMsg := none, bare := false }

/-- Repository for the diff claim: one commit, clean working copy. -/
def stDiff : RepoState :=
  { headVal := RefValue.sym "ref: refs/heads/master",
    refsHeads := [("master", cFirst)], otherRefs := [],
    store := [bOne, tOne, cFirst],
    indexEntries := [{ path := "a.txt", stage := 0, hash := bOne }],
    workingCopy := [("a.txt", "one")],
    mergeHead := none, mergeMsg := none, bare := false }

/-- Repository for the checkout claim: on master at cFirst, a.txt staged at
"one" but modified on disk to "three", with branch feature at cSecond where
a.txt differs. -/
def stCheckout : RepoState :=
  { headVal := RefValue.sym "ref: refs/heads/master",
    refsHeads := [("master", cFirst), ("feature", cSecond)], otherRefs := [],
    store := [bOne, bTwo, tOne, tTwo, cFirst, cSecond],
    indexEntries := [{ path := "a.txt", stage := 0, hash := bOne }],
    workingCopy := [("a.txt", "three")],
    mergeHead := none, mergeMsg := none, bare := false }

/-- Repository for the unmerged-files counterexample: a conflicted stage-2
entry remains staged while no merge is in progress. -/
def stConflictNoMerge : RepoState :=
  { headVal := RefValue.sym "ref: refs/heads/master",
    refsHeads := [("master", cRoot)], otherRefs := [],
    store := [tEmpty, cRoot],
    indexEntries := [{ path := "a.txt", stage := 2, hash := Obj.blob "ours" }],
    workingCopy := [],
    mergeHead := none, mergeMsg := none, bare := false }

/-- Repository for the unmerged-files witness: the same conflicted entry with
a merge pending. -/
def stConflictMerge : RepoState :=
  { headVal := RefValue.sym "ref: refs/heads/master",
    refsHeads := [("master", cRoot)], otherRefs := [],
    store := [tEmpty, cRoot, cOther],
    indexEntries := [{ path := "a.txt", stage := 2, hash := Obj.blob "ours" }],
    workingCopy := [],
    mergeHead := some cOther, mergeMsg := some "m", bare := false }

/-- Repository for the merge-commit witnesses: clean conflict-free index with
a merge pending and a persisted MERGE_MSG. -/
def stMerge : RepoState :=
  { headVal := RefValue.sym "ref: refs/heads/master",
    refsHeads := [("master", cRoot)], otherRefs := [],
    store := [tEmpty, cRoot, cOther],
    indexEntries := [{ path := "a.txt", stage := 0, hash := Obj.blob "hi" }],
    workingCopy := [("a.txt", "hi")],
    mergeHead := some cOther, mergeMsg := some "merged", bare := false }

/-- Repository for the duplicate-branch claim: branch feature already exists. -/
def stBranch : RepoState :=
  { headVal := RefValue.sym "ref: refs/heads/master",
    refsHeads := [("master", cRoot), ("feature", cRoot)], otherRefs := [],
    store := [tEmpty, cRoot],
    indexEntries := [], workingCopy := [],
    mergeHead := none, mergeMsg := none, bare := false }

/-- An already initialized disk, used by the init no-op witness. -/
def diskInRepo : Disk := { inRepo := true, repo := stDiff }

/-- Decidable equality on command results. -/
instance : DecidableEq (Except TigError String) :=
  fun a b =>
    match a, b with
    | .ok x, .ok y =>
      match decEq x y with
      | isTrue h => isTrue (by rw [h])
      | isFalse h => isFalse (fun hh => h (by injection hh))
    | .ok _, .error _ => isFalse (fun h => Except.noConfusion h)
    | .error _, .ok _ => isFalse (fun h => Except.noConfusion h)
    | .error x, .error y =>
      match decEq x y with
      | isTrue h => isTrue (by rw [h])
      | isFalse h => isFalse (fun hh => h (by injection hh))

/-- The freshly written tree is in the store afterwards; all other components
of the state are untouched by write_tree. -/
@[simp] theorem write_tree_store (st : RepoState) :
    ((write_tree st).2).store = storeAdd st.store (write_tree st).1 := rfl

/-- write_tree leaves HEAD untouched. -/
@[simp] theorem write_tree_headVal (st : RepoState) :
    ((write_tree st).2).headVal = st.headVal := rfl

/-- write_tree leaves the branch refs untouched. -/
@[simp] theorem write_tree_refsHeads (st : RepoState) :
    ((write_tree st).2).refsHeads = st.refsHeads := rfl

/-- write_tree leaves the index untouched. -/
@[simp] theorem write_tree_indexEntries (st : RepoState) :
    ((write_tree st).2).indexEntries = st.indexEntries := rfl

/-- write_tree leaves the pending merge head untouched. -/
@[simp] theorem write_tree_mergeHead (st : RepoState) :
    ((write_tree st).2).mergeHead = st.mergeHead := rfl

/-- write_tree leaves the pending merge message untouched. -/
@[simp] theorem write_tree_mergeMsg (st : RepoState) :
    ((write_tree st).2).mergeMsg = st.mergeMsg := rfl

/-- A ref update never touches the object store. -/
@[simp] theorem update_ref_store (st : RepoState) (r : String) (h : Obj) :
    (update_ref st r h).store = st.store := by
  unfold update_ref
  repeat' split
  all_goals rfl

/-- A ref update never touches the pending merge head. -/
@[simp] theorem update_ref_mergeHead (st : RepoState) (r : String) (h : Obj) :
    (update_ref st r h).mergeHead = st.mergeHead := by
  unfold update_ref
  repeat' split
  all_goals rfl

/-- A ref update never touches the pending merge message. -/
@[simp] theorem update_ref_mergeMsg (st : RepoState) (r : String) (h : Obj) :
    (update_ref st r h).mergeMsg = st.mergeMsg := by
  unfold update_ref
  repeat' split
  all_goals rfl

/-- An idempotent store write contains the written object. -/
theorem self_mem_storeAdd (s : List Obj) (x : Obj) : x ∈ storeAdd s x := by
  unfold storeAdd
  split
  · assumption
  · exact List.mem_cons_self x s

/-- Everything in a store after a write was there before or is the written
object. -/
theorem mem_storeAdd_elim (s : List Obj) (x o : Obj) (h : o ∈ storeAdd s x) :
    o ∈ s ∨ o = x := by
  unfold storeAdd at h
  split at h
  · exact Or.inl h
  · rcases List.mem_cons.mp h with h1 | h1
    · exact Or.inr h1
    · exact Or.inl h1

/-- C9: a call to init made while the current directory is already inside a
repository returns immediately without error, writes no files, and leaves all
repository state (HEAD, config, objects, refs) unchanged. -/
theorem init_noop_when_in_repo (opts : InitOpts) (d : Disk)
    (h : d.inRepo = true) : init opts d = d := by
  unfold init
  simp [h]

/-- C9 witness: the no-op on a concrete initialized disk. -/
theorem init_noop_when_in_repo_witness :
    init { bare := false } diskInRepo = diskInRepo :=
  init_noop_when_in_repo { bare := false } diskInRepo (by decide)

/-- C5: whenever the target of checkout resolves to a stored commit, the
repository is not already on the target, and changedFilesCommitWouldOverwrite
is non-empty, checkout fails with WouldLoseChanges listing exactly those
paths and returns the state unchanged: no write to the working copy, HEAD or
index has happened. -/
theorem checkout_would_lose_changes (ref : RefName) (st : RepoState) (h : Obj)
    (hb : st.bare = false)
    (hres : refsHash st ref = some h)
    (hmem : h ∈ st.store)
    (hty : objType h = "commit")
    (hhb : refIsHeadBranch st ref = false)
    (hhc : refEqHeadFileContent st ref = false)
    (hch : changedFilesCommitWouldOverwrite st h ≠ []) :
    checkout ref st =
      (.error (.wouldLoseChanges (changedFilesCommitWouldOverwrite st h)), st) := by
  unfold checkout
  simp [hb, hres, hmem, hty, hhb, hhc, hch]

/-- C5 witness: the concrete blocked checkout of branch feature. -/
theorem checkout_would_lose_changes_witness :
    checkout (RefName.branch "feature") stCheckout =
      (.error (.wouldLoseChanges ["a.txt"]), stCheckout) := by
  have h := checkout_would_lose_changes (RefName.branch "feature") stCheckout
    cSecond (by decide) (by decide) (by decide) (by decide) (by decide)
    (by decide) (by decide)
  rw [h]
  decide

/-- conflictedPaths only reads the index, which write_tree leaves untouched. -/
@[simp] theorem conflictedPaths_write_tree (st : RepoState) :
    conflictedPaths (write_tree st).2 = conflictedPaths st := rfl

/-- A successful commitFinish run with a merge pending clears both merge
markers and extends the store with exactly the new commit object. -/
theorem commitFinish_ok_merge (m : String) (th : Obj) (hd : String)
    (st1 : RepoState) (r : String) (st2 : RepoState)
    (hm1 : isMergeInProgress st1 = true)
    (hc : commitFinish m th hd st1 = (.ok r, st2)) :
    st2.mergeHead = none ∧ st2.mergeMsg = none ∧
    st2.store = storeAdd st1.store
      (Obj.commit th (objListOfList (commitParentHashes st1)) m) := by
  simp only [commitFinish, writeCommit] at hc
  split at hc
  · injection hc with hc1 hc2
    subst hc2
    refine ⟨rfl, rfl, ?_⟩
    simp
  · rename_i hcond
    exfalso
    apply hcond
    simpa [isMergeInProgress] using hm1

/-- A successful commitFinish run with no merge pending extends the store
with exactly the new commit object. -/
theorem commitFinish_ok_plain (m : String) (th : Obj) (hd : String)
    (st1 : RepoState) (r : String) (st2 : RepoState)
    (hm1 : isMergeInProgress st1 = false)
    (hc : commitFinish m th hd st1 = (.ok r, st2)) :
    st2.store = storeAdd st1.store
      (Obj.commit th (objListOfList (commitParentHashes st1)) m) := by
  simp only [commitFinish, writeCommit] at hc
  split at hc
  · rename_i hcond
    exfalso
    simp only [isMergeInProgress] at hm1 hcond
    simp [hm1] at hcond
  · injection hc with hc1 hc2
    subst hc2
    simp

/-- C7: whenever a merge is in progress and commit succeeds, the pending
merge state is consumed: the MERGE_MSG file is deleted and the MERGE_HEAD ref
is removed, so no merge is in progress afterwards. -/
theorem commit_consumes_merge_state (opts : CommitOpts) (st : RepoState)
    (r : String) (st2 : RepoState)
    (hm : isMergeInProgress st = true)
    (hc : commit opts st = (.ok r, st2)) :
    st2.mergeHead = none ∧ st2.mergeMsg = none ∧ isMergeInProgress st2 = false := by
  have hcond : isMergeInProgress (write_tree st).2 = true := by
    simpa [isMergeInProgress] using hm
  simp only [commit, commitAfterTreeCheck] at hc
  repeat' split at hc
  all_goals try exact absurd hc (by simp)
  all_goals
    obtain ⟨h1, h2, h3⟩ := commitFinish_ok_merge _ _ _ _ _ _ hcond hc
  all_goals exact ⟨h1, h2, by simp [isMergeInProgress, h1]⟩

/-- C7 witness: a concrete successful merge commit consumes the merge state. -/
theorem commit_consumes_merge_state_witness :
    (commit { m := "x" } stMerge).2.mergeHead = none ∧
    (commit { m := "x" } stMerge).2.mergeMsg = none ∧
    isMergeInProgress (commit { m := "x" } stMerge).2 = false :=
  commit_consumes_merge_state { m := "x" } stMerge
    "Merge made by three-way strategy." (commit { m := "x" } stMerge).2
    (by decide) (by decide)

/-- C10: whenever a successful commit runs with a merge in progress, the
commit object it writes carries the persisted MERGE_MSG content as its
message, whatever the options said; the options message is the one written
only when no merge is in progress. -/
theorem commit_message_source (opts : CommitOpts) (st : RepoState)
    (r : String) (st2 : RepoState)
    (hc : commit opts st = (.ok r, st2)) :
    (∀ msg, st.mergeHead ≠ none → st.mergeMsg = some msg →
      Obj.commit (write_tree st).1
        (objListOfList (commitParentHashes (write_tree st).2)) msg ∈ st2.store) ∧
    (st.mergeHead = none →
      Obj.commit (write_tree st).1
        (objListOfList (commitParentHashes (write_tree st).2)) opts.m ∈ st2.store) := by
  constructor
  · intro msg hmh hmm
    have hcond : isMergeInProgress (write_tree st).2 = true := by
      simp [isMergeInProgress, Option.isSome_iff_ne_none, hmh]
    simp only [commit, commitAfterTreeCheck, write_tree_mergeMsg, hmm] at hc
    repeat' split at hc
    all_goals first
      | exact absurd hc (by simp)
      | exact absurd hcond (by assumption)
      | (rw [(commitFinish_ok_merge _ _ _ _ _ _ hcond hc).2.2]
         exact self_mem_storeAdd _ _)
  · intro hmh
    have hcond : isMergeInProgress (write_tree st).2 = false := by
      simp [isMergeInProgress, hmh]
    simp only [commit, commitAfterTreeCheck] at hc
    repeat' split at hc
    all_goals first
      | exact absurd hc (by simp)
      | exact absurd (by assumption : isMergeInProgress (write_tree st).2 = true)
          (by simp [hcond])
      | (rw [commitFinish_ok_plain _ _ _ _ _ _ hcond hc]
         exact self_mem_storeAdd _ _)

/-- C10 witness: the concrete merge commit stores a commit object whose
message is the persisted MERGE_MSG text, not the -m option. -/
theorem commit_message_source_witness :
    Obj.commit (write_tree stMerge).1
      (objListOfList (commitParentHashes (write_tree stMerge).2)) "merged" ∈
      (commit { m := "x" } stMerge).2.store :=
  (commit_message_source { m := "x" } stMerge
      "Merge made by three-way strategy." (commit { m := "x" } stMerge).2
      (by decide)).1 "merged" (by decide) (by decide)

/-- C6 counterexample: a repository whose index still holds a stage-2
(conflicted) entry but whose MERGE_HEAD is absent; commit does not fail with
the unmerged-files error — it succeeds and writes a commit object — because
the source guards the conflict check behind merge.isMergeInProgress(). -/
theorem commit_conflicted_without_merge_cex :
    conflictedPaths stConflictNoMerge = ["a.txt"] ∧
    isMergeInProgress stConflictNoMerge = false ∧
    (commit { m := "x" } stConflictNoMerge).1 = .ok "[master <digest>] x" ∧
    Obj.commit (Obj.tree (entsOfList [("a.txt", Obj.blob "ours")]))
        (objListOfList [cRoot]) "x" ∈
      (commit { m := "x" } stConflictNoMerge).2.store := by
  decide

/-- C6 amended: for every commit attempt made while a merge is in progress
and conflicted paths (index entries at a stage other than 0) remain staged,
provided the earlier nothing-to-commit guard does not abort first (the HEAD
object is readable and its tree differs from the freshly written tree),
commit fails with an UnmergedFiles error listing the conflicted paths and
creates no commit object. -/
theorem commit_blocks_unmerged (opts : CommitOpts) (st : RepoState)
    (mh hobj : Obj)
    (hb : st.bare = false)
    (hm : st.mergeHead = some mh)
    (hcp : conflictedPaths st ≠ [])
    (hr : objRead (write_tree st).2 (refsHash (write_tree st).2 RefName.head) = some hobj)
    (ht : ¬ some (write_tree st).1 = objTreeHash hobj) :
    commit opts st =
      (.error (.unmergedFiles (conflictedPaths st)), (write_tree st).2) ∧
    ∀ o ∈ ((write_tree st).2).store, objType o = "commit" → o ∈ st.store := by
  constructor
  · obtain ⟨hh, hhh⟩ : ∃ hh, refsHash (write_tree st).2 RefName.head = some hh := by
      cases hx : refsHash (write_tree st).2 RefName.head with
      | none => rw [hx] at hr; exact absurd hr (by simp [objRead])
      | some hh => exact ⟨hh, rfl⟩
    have hguard : hashNeqLiteralUndefined (refsHash (write_tree st).2 RefName.head) = true := by
      rw [hhh]; rfl
    simp only [commit, commitAfterTreeCheck]
    rw [if_neg (by simp [hb]), if_pos hguard, hr]
    dsimp only
    rw [if_neg ht,
      if_pos ⟨by simp [isMergeInProgress, hm], by simpa using hcp⟩,
      conflictedPaths_write_tree]
  · intro o ho hty
    rw [write_tree_store] at ho
    rcases mem_storeAdd_elim _ _ _ ho with h1 | h1
    · exact h1
    · exfalso
      subst h1
      simp [write_tree, objType] at hty

/-- C6 witness: the concrete conflicted repository with a merge pending is
blocked with the unmerged-files error listing the conflicted path. -/
theorem commit_blocks_unmerged_witness :
    commit { m := "x" } stConflictMerge =
      (.error (.unmergedFiles (conflictedPaths stConflictMerge)),
        (write_tree stConflictMerge).2) :=
  (commit_blocks_unmerged { m := "x" } stConflictMerge cOther cRoot
    (by decide) (by decide) (by decide) (by decide) (by decide)).1

/-- C1: evaluation of rm at the failing input. In stRm the matched file
a.txt carries an uncommitted working-copy change, yet rm with the force
option raises the cannot-remove-changed error instead of proceeding, and rm
without force raises a ReferenceError on the misspelled identifier
changestoRm instead of the uncommitted-changes error; in both runs no file is
removed and the state is returned untouched. -/
theorem rm_force_inverted :
    matchingFiles stRm "a.txt" = ["a.txt"] ∧
    addedOrModifiedFiles stRm = ["a.txt"] ∧
    rm "a.txt" { f := true, r := false } stRm =
      (.error .cannotRemoveChanged, stRm) ∧
    rm "a.txt" { f := false, r := false } stRm =
      (.error (.referenceError "changestoRm"), stRm) := by
  decide

/-- C2: evaluation of commit at the failing input. After init on a fresh
directory, HEAD is unresolved, yet the first commit aborts with
ObjectNotFound instead of succeeding: the nothing-to-commit guard compares
refs.hash("HEAD") against the string literal "undefined", so it proceeds to
objects.read on the unresolved value. The spec-modelled parent computation on
that same state yields the empty list the claim expects for a root commit. -/
theorem commit_first_commit_fails :
    (commit { m := "msg" } (init { bare := false } emptyDisk).repo).1 =
      .error .objectNotFound ∧
    commitParentHashes (init { bare := false } emptyDisk).repo = [] := by
  decide

/-- The shape the claim requires of HEAD content, following the words of the
spec (section 3, Ref): symbolic reference text reading
"ref: refs/heads/<name>" for the given branch name, allowing one trailing
newline. -/
def specHeadPointsAtBranch (content name : String) : Bool :=
  stripNl content = "ref: refs/heads/" ++ name

/-- C3: evaluation of init at the failing input. On a directory that is not
yet a repository, init writes HEAD as "ref: refs/headers/master" with a
newline — refs slash headers, a path that its own structure never creates —
so the content is not a symbolic reference of the required
"ref: refs/heads/<name>" form and does not point at the master branch. -/
theorem init_head_symref_malformed :
    (init { bare := false } emptyDisk).repo.headVal =
      RefValue.sym "ref: refs/headers/master\n" ∧
    specHeadPointsAtBranch "ref: refs/headers/master\n" "master" = false ∧
    strPrefixOf "ref: refs/heads/" "ref: refs/headers/master\n" = false := by
  decide

/-- C4: evaluation of diff at the failing input. In stDiff the supplied ref
nosuchbranch resolves to nothing, yet diff returns normal output instead of
the unknown-revision error: the guard tests ref1 === undefined conjoined with
an unresolved hash, so it can only fire when the argument is omitted — as the
final conjunct shows for an omitted first argument. -/
theorem diff_unknown_revision_guard_inverted :
    refsHash stDiff (RefName.branch "nosuchbranch") = none ∧
    (diffCmd (some (RefName.branch "nosuchbranch"))
        (some (RefName.branch "master")) stDiff).1 = .ok "\n" ∧
    (diffCmd none (some (RefName.branch "master")) stDiff).1 =
      .error (.unknownRevision "undefined") := by
  decide

/-- C8: evaluation of branch at the failing input. In stBranch the local ref
refs/heads/feature already exists; branch("feature") does fail before
writing any ref — the state comes back untouched — but the error it raises is
the ReferenceError from the misspelled constructor Errror, not a
duplicate-branch error reporting the name. -/
theorem branch_duplicate_raises_reference_error :
    refsExists stBranch (toLocalRef "feature") = true ∧
    branch (some "feature") stBranch =
      (.error (.referenceError "Errror"), stBranch) := by
  decide
